import Mathlib

/-!
Shallow embedding of the USN journal decoding core of the `mft` repository
(`src/usn_journal/entry.rs`): the record decoder `UsnJournalEntry::from_buffer`,
the journal iterator `UsnJournalParser::next`, and the bit-flag enumerations
with their `get_meaning` description lookups.

Byte streams are modelled as a byte list together with a cursor position, the
reading primitives mirror `byteorder`'s little-endian readers over an in-memory
cursor (`std::io::Cursor`), and every fallible operation returns `Except`.
-/

namespace Mft

/-- Error type of the crate (`crate::err::Error`), restricted to the variants
reachable from the USN journal decoder.  `ioError` stands for a propagated
`std::io::Error` (on an in-memory cursor the only possible I/O failure is an
unexpected end of stream). -/
inductive Error where
  | ioError
  | failedToReadWindowsTime
  | invalidFilename
deriving Repr, DecidableEq

instance {ε α : Type _} [DecidableEq ε] [DecidableEq α] : DecidableEq (Except ε α) := fun x y =>
  match x, y with
  | .ok a, .ok b =>
    if h : a = b then .isTrue (congrArg Except.ok h)
    else .isFalse (fun hxy => h (Except.ok.inj hxy))
  | .ok _, .error _ => .isFalse (fun hxy => Except.noConfusion hxy)
  | .error _, .ok _ => .isFalse (fun hxy => Except.noConfusion hxy)
  | .error e, .error f =>
    if h : e = f then .isTrue (congrArg Except.error h)
    else .isFalse (fun hxy => h (Except.error.inj hxy))

/-- A seekable in-memory byte stream: the byte data plus the cursor position.
This models `std::io::Cursor` over a byte buffer, which is how the decoder is
driven both in `UsnJournalParser::next` and in the fixture test. -/
structure ByteStream where
  data : List Nat
  pos : Nat
deriving Repr, DecidableEq

/-- Little-endian value of a byte list (least significant byte first). -/
def leNat (bs : List Nat) : Nat :=
  bs.foldr (fun b acc => b + 256 * acc) 0

/-- Two's-complement interpretation of a 64-bit value, as done by
`read_i64::<LittleEndian>`. -/
def toI64 (n : Nat) : Int :=
  if n < 2 ^ 63 then (n : Int) else (n : Int) - 2 ^ 64

/-- `Read::read_exact` into an `n`-byte buffer: succeeds returning exactly the
next `n` bytes if they are available, otherwise fails with an unexpected
end-of-stream error. -/
def readExact (s : ByteStream) (n : Nat) : Except Error (List Nat × ByteStream) :=
  if s.pos + n ≤ s.data.length then
    .ok ((s.data.drop s.pos).take n, ⟨s.data, s.pos + n⟩)
  else .error .ioError

/-- `read_u16::<LittleEndian>`: read two bytes and combine them little-endian. -/
def readU16 (s : ByteStream) : Except Error (Nat × ByteStream) :=
  if s.pos + 2 ≤ s.data.length then
    .ok (leNat ((s.data.drop s.pos).take 2), ⟨s.data, s.pos + 2⟩)
  else .error .ioError

/-- `read_u32::<LittleEndian>`: read four bytes and combine them little-endian. -/
def readU32 (s : ByteStream) : Except Error (Nat × ByteStream) :=
  if s.pos + 4 ≤ s.data.length then
    .ok (leNat ((s.data.drop s.pos).take 4), ⟨s.data, s.pos + 4⟩)
  else .error .ioError

/-- `read_u64::<LittleEndian>`: read eight bytes and combine them little-endian. -/
def readU64 (s : ByteStream) : Except Error (Nat × ByteStream) :=
  if s.pos + 8 ≤ s.data.length then
    .ok (leNat ((s.data.drop s.pos).take 8), ⟨s.data, s.pos + 8⟩)
  else .error .ioError

/-- `UsnReasonFlags` bit-flag set (a `u32` bit pattern). -/
structure UsnReasonFlags where
  bits : Nat
deriving Repr, DecidableEq

def USN_REASON_BASIC_INFO_CHANGE : Nat := 0x00008000
def USN_REASON_CLOSE : Nat := 0x80000000
def USN_REASON_COMPRESSION_CHANGE : Nat := 0x00020000
def USN_REASON_DATA_EXTEND : Nat := 0x00000002
def USN_REASON_DATA_OVERWRITE : Nat := 0x00000001
def USN_REASON_DATA_TRUNCATION : Nat := 0x00000004
def USN_REASON_EA_CHANGE : Nat := 0x00000400
def USN_REASON_ENCRYPTION_CHANGE : Nat := 0x00040000
def USN_REASON_FILE_CREATE : Nat := 0x00000100
def USN_REASON_FILE_DELETE : Nat := 0x00000200
def USN_REASON_HARD_LINK_CHANGE : Nat := 0x00010000
def USN_REASON_INDEXABLE_CHANGE : Nat := 0x00004000
def USN_REASON_NAMED_DATA_EXTEND : Nat := 0x00000020
def USN_REASON_NAMED_DATA_OVERWRITE : Nat := 0x00000010
def USN_REASON_NAMED_DATA_TRUNCATION : Nat := 0x00000040
def USN_REASON_OBJECT_ID_CHANGE : Nat := 0x00080000
def USN_REASON_RENAME_NEW_NAME : Nat := 0x00002000
def USN_REASON_RENAME_OLD_NAME : Nat := 0x00001000
def USN_REASON_REPARSE_POINT_CHANGE : Nat := 0x00100000
def USN_REASON_SECURITY_CHANGE : Nat := 0x00000800
def USN_REASON_STREAM_CHANGE : Nat := 0x00200000
def USN_REASON_INTEGRITY_CHANGE : Nat := 0x00800000

/-- The union of all defined `UsnReasonFlags` constants, i.e. the
`bitflags`-generated `UsnReasonFlags::all().bits`. -/
def UsnReasonFlags.all_bits : Nat :=
  USN_REASON_BASIC_INFO_CHANGE ||| USN_REASON_CLOSE |||
  USN_REASON_COMPRESSION_CHANGE ||| USN_REASON_DATA_EXTEND |||
  USN_REASON_DATA_OVERWRITE ||| USN_REASON_DATA_TRUNCATION |||
  USN_REASON_EA_CHANGE ||| USN_REASON_ENCRYPTION_CHANGE |||
  USN_REASON_FILE_CREATE ||| USN_REASON_FILE_DELETE |||
  USN_REASON_HARD_LINK_CHANGE ||| USN_REASON_INDEXABLE_CHANGE |||
  USN_REASON_NAMED_DATA_EXTEND ||| USN_REASON_NAMED_DATA_OVERWRITE |||
  USN_REASON_NAMED_DATA_TRUNCATION ||| USN_REASON_OBJECT_ID_CHANGE |||
  USN_REASON_RENAME_NEW_NAME ||| USN_REASON_RENAME_OLD_NAME |||
  USN_REASON_REPARSE_POINT_CHANGE ||| USN_REASON_SECURITY_CHANGE |||
  USN_REASON_STREAM_CHANGE ||| USN_REASON_INTEGRITY_CHANGE

/-- `bitflags`-generated `UsnReasonFlags::from_bits_truncate`: keep only the
defined flag bits, silently discarding unknown ones. -/
def UsnReasonFlags.from_bits_truncate (bits : Nat) : UsnReasonFlags :=
  ⟨bits &&& UsnReasonFlags.all_bits⟩

/-- `UsnReasonFlags::get_meaning`: the description lookup, a `match` on the
exact bit pattern.  A Rust `match` over disjoint integer literals is a
sequential chain of equality tests. -/
def UsnReasonFlags.get_meaning (f : UsnReasonFlags) : String :=
  if f.bits = 0x00008000 then
    "A user has either changed one or more files or directory attributes (such as read-only, hidden, archive, or sparse) or one or more time stamps."
  else if f.bits = 0x80000000 then
    "The file or directory is closed."
  else if f.bits = 0x00020000 then
    "The compression state of the file or directory is changed from (or to) compressed."
  else if f.bits = 0x00000002 then
    "The file or directory is extended (added to)."
  else if f.bits = 0x00000001 then
    "The data in the file or directory is overwritten."
  else if f.bits = 0x00000004 then
    "The file or directory is truncated."
  else if f.bits = 0x00000400 then
    "The user made a change to the extended attributes of a file or directory. These NTFS file system attributes are not accessible to nonnative applications. This USN reason does not appear under normal system usage but can appear if an application or utility bypasses the Win32 API and uses the native API to create or modify extended attributes of a file or directory."
  else if f.bits = 0x00040000 then
    "The file or directory is encrypted or decrypted."
  else if f.bits = 0x00000100 then
    "The file or directory is created for the first time."
  else if f.bits = 0x00000200 then
    "The file or directory is deleted."
  else if f.bits = 0x00010000 then
    "A hard link is added to (or removed from) the file or directory."
  else if f.bits = 0x00004000 then
    "A user changes the FILE_ATTRIBUTE_NOT_CONTEXT_INDEXED attribute. That is, the user changes the file or directory from one in which content can be indexed to one in which content cannot be indexed, or vice versa."
  else if f.bits = 0x00000020 then
    "The one (or more) named data stream for a file is extended (added to)."
  else if f.bits = 0x00000010 then
    "The data in one (or more) named data stream for a file is overwritten."
  else if f.bits = 0x00000040 then
    "One (or more) named data stream for a file is truncated."
  else if f.bits = 0x00080000 then
    "The object identifier of a file or directory is changed."
  else if f.bits = 0x00002000 then
    "A file or directory is renamed, and the file name in the USN_RECORD structure is the new name."
  else if f.bits = 0x00001000 then
    "The file or directory is renamed, and the file name in the USN_RECORD structure is the previous name."
  else if f.bits = 0x00100000 then
    "The reparse point that is contained in a file or directory is changed, or a reparse point is added to (or deleted from) a file or directory."
  else if f.bits = 0x00000800 then
    "A change is made in the access rights to a file or directory."
  else if f.bits = 0x00200000 then
    "A named stream is added to (or removed from) a file, or a named stream is renamed."
  else if f.bits = 0x00800000 then
    "A change is made in the integrity status of a file or directory."
  else ""

/-- `UsnSourceInfoFlags` bit-flag set (a `u32` bit pattern). -/
structure UsnSourceInfoFlags where
  bits : Nat
deriving Repr, DecidableEq

def USN_SOURCE_DATA_MANAGEMENT : Nat := 0x00000001
def USN_SOURCE_AUXILIARY_DATA : Nat := 0x00000002
def USN_SOURCE_REPLICATION_MANAGEMENT : Nat := 0x00000004

/-- The union of all defined `UsnSourceInfoFlags` constants. -/
def UsnSourceInfoFlags.all_bits : Nat :=
  USN_SOURCE_DATA_MANAGEMENT ||| USN_SOURCE_AUXILIARY_DATA |||
  USN_SOURCE_REPLICATION_MANAGEMENT

/-- `bitflags`-generated `UsnSourceInfoFlags::from_bits_truncate`. -/
def UsnSourceInfoFlags.from_bits_truncate (bits : Nat) : UsnSourceInfoFlags :=
  ⟨bits &&& UsnSourceInfoFlags.all_bits⟩

/-- `UsnSourceInfoFlags::get_meaning`: description lookup by exact bit pattern. -/
def UsnSourceInfoFlags.get_meaning (f : UsnSourceInfoFlags) : String :=
  if f.bits = 0x00000001 then
    "The operation provides information about a change to the file or directory that was made by the operating system. For example, a change journal record with this SourceInfo value is generated when the Remote Storage system moves data from external to local storage. This SourceInfo value indicates that the modifications did not change the application data in the file."
  else if f.bits = 0x00000002 then
    "The operation adds a private data stream to a file or directory. For example, a virus detector might add checksum information. As the virus detector modifies the item, the system generates USN records. This SourceInfo value indicates that the modifications did not change the application data in the file."
  else if f.bits = 0x00000004 then
    "The operation modified the file to match the content of the same file that exists in another member of the replica set for the File Replication Service (FRS)."
  else ""

/-- Modelled from the spec: `FileAttributeFlags` lives in `crate::attribute`,
which is not among the provided source files; only its use in
`UsnJournalEntry::from_buffer` and the fixture test assertion
(`file_attributes.bits() == 8224` for the raw value `0x2020`) are visible.
It is the standard Windows `FILE_ATTRIBUTE_*` bit-flag set referenced by the
spec ("file attribute flags"); the constants below are those standard values,
and the test assertion pins `0x20` and `0x2000` as defined bits. -/
structure FileAttributeFlags where
  bits : Nat
deriving Repr, DecidableEq

def FILE_ATTRIBUTE_READONLY : Nat := 0x00000001
def FILE_ATTRIBUTE_HIDDEN : Nat := 0x00000002
def FILE_ATTRIBUTE_SYSTEM : Nat := 0x00000004
def FILE_ATTRIBUTE_ARCHIVE : Nat := 0x00000020
def FILE_ATTRIBUTE_DEVICE : Nat := 0x00000040
def FILE_ATTRIBUTE_NORMAL : Nat := 0x00000080
def FILE_ATTRIBUTE_TEMPORARY : Nat := 0x00000100
def FILE_ATTRIBUTE_SPARSE_FILE : Nat := 0x00000200
def FILE_ATTRIBUTE_REPARSE_POINT : Nat := 0x00000400
def FILE_ATTRIBUTE_COMPRESSED : Nat := 0x00000800
def FILE_ATTRIBUTE_OFFLINE : Nat := 0x00001000
def FILE_ATTRIBUTE_NOT_CONTENT_INDEXED : Nat := 0x00002000
def FILE_ATTRIBUTE_ENCRYPTED : Nat := 0x00004000

/-- The union of all defined `FileAttributeFlags` constants. -/
def FileAttributeFlags.all_bits : Nat :=
  FILE_ATTRIBUTE_READONLY ||| FILE_ATTRIBUTE_HIDDEN ||| FILE_ATTRIBUTE_SYSTEM |||
  FILE_ATTRIBUTE_ARCHIVE ||| FILE_ATTRIBUTE_DEVICE ||| FILE_ATTRIBUTE_NORMAL |||
  FILE_ATTRIBUTE_TEMPORARY ||| FILE_ATTRIBUTE_SPARSE_FILE |||
  FILE_ATTRIBUTE_REPARSE_POINT ||| FILE_ATTRIBUTE_COMPRESSED |||
  FILE_ATTRIBUTE_OFFLINE ||| FILE_ATTRIBUTE_NOT_CONTENT_INDEXED |||
  FILE_ATTRIBUTE_ENCRYPTED

/-- `bitflags`-generated `FileAttributeFlags::from_bits_truncate`. -/
def FileAttributeFlags.from_bits_truncate (bits : Nat) : FileAttributeFlags :=
  ⟨bits &&& FileAttributeFlags.all_bits⟩

/-- UTF-16 code units of a little-endian byte sequence, as consumed by the
`encoding` crate's UTF-16LE decoder: bytes are paired low-then-high; a trailing
lone byte is an incomplete sequence, dropped by `DecoderTrap::Ignore` at
finish. -/
def utf16_units : List Nat → List Nat
  | lo :: hi :: rest => (lo + 256 * hi) :: utf16_units rest
  | _ => []

/-- UTF-16 code-unit sequence to characters with `DecoderTrap::Ignore`
semantics, as a state machine carrying an optional pending lead (high)
surrogate: a lead followed by a trail combines into a supplementary character;
a malformed unit (lone trail surrogate, or a lead not followed by a trail) is
dropped and decoding continues. -/
def utf16_chars : List Nat → Option Nat → List Char
  | [], _ => []
  | u :: rest, none =>
    if 0xD800 ≤ u ∧ u < 0xDC00 then utf16_chars rest (some u)
    else if 0xDC00 ≤ u ∧ u < 0xE000 then utf16_chars rest none
    else Char.ofNat u :: utf16_chars rest none
  | u :: rest, some hi =>
    if 0xDC00 ≤ u ∧ u < 0xE000 then
      Char.ofNat (0x10000 + (hi - 0xD800) * 0x400 + (u - 0xDC00)) :: utf16_chars rest none
    else if 0xD800 ≤ u ∧ u < 0xDC00 then utf16_chars rest (some u)
    else Char.ofNat u :: utf16_chars rest none

/-- `UTF_16LE.decode(bytes, DecoderTrap::Ignore)`: tolerant UTF-16LE decoding.
The crate's `decode` returns a `Result`; with the `Ignore` trap every
malformed sequence is skipped rather than reported, so the decode always
succeeds (`some`). -/
def utf16le_decode_ignore (bytes : List Nat) : Option String :=
  some (String.mk (utf16_chars (utf16_units bytes) none))

/-- The decoded USN journal record (`UsnJournalEntry`).  `time_stamp` holds the
raw Windows FILETIME value (the count of 100-nanosecond intervals since
1601-01-01 UTC) that the external `winstructs`/`chrono` conversion is applied
to; that conversion is outside this repository and is kept at its interface. -/
structure UsnJournalEntry where
  record_length : Nat
  major_version : Nat
  minor_version : Nat
  file_reference_number : Nat
  parent_file_reference_number : Nat
  usn : Int
  time_stamp : Nat
  reason : UsnReasonFlags
  source_info : UsnSourceInfoFlags
  security_id : Nat
  file_attributes : FileAttributeFlags
  file_name_length : Nat
  file_name_offset : Nat
  file_name : String
deriving Repr, DecidableEq

/-- `UsnJournalEntry::from_buffer`: sequential little-endian field reads from
the stream, mirroring the `?`-propagation of the Rust source; the returned
stream is the advanced cursor.  The `WinTimestamp::from_reader` call reads
eight bytes and maps its read failure to `failedToReadWindowsTime`. -/
def UsnJournalEntry.from_buffer (s : ByteStream) :
    Except Error (UsnJournalEntry × ByteStream) :=
  match readU32 s with
  | .error e => .error e
  | .ok (record_length, s) =>
  match readU16 s with
  | .error e => .error e
  | .ok (major_version, s) =>
  match readU16 s with
  | .error e => .error e
  | .ok (minor_version, s) =>
  match readU64 s with
  | .error e => .error e
  | .ok (file_reference_number, s) =>
  match readU64 s with
  | .error e => .error e
  | .ok (parent_file_reference_number, s) =>
  match readU64 s with
  | .error e => .error e
  | .ok (usn_raw, s) =>
  match readU64 s with
  | .error _ => .error .failedToReadWindowsTime
  | .ok (time_stamp, s) =>
  match readU32 s with
  | .error e => .error e
  | .ok (reason_raw, s) =>
  match readU32 s with
  | .error e => .error e
  | .ok (source_info_raw, s) =>
  match readU32 s with
  | .error e => .error e
  | .ok (security_id, s) =>
  match readU32 s with
  | .error e => .error e
  | .ok (file_attributes_raw, s) =>
  match readU16 s with
  | .error e => .error e
  | .ok (file_name_length, s) =>
  match readU16 s with
  | .error e => .error e
  | .ok (file_name_offset, s) =>
  match readExact s file_name_length with
  | .error e => .error e
  | .ok (name_buffer, s) =>
  match utf16le_decode_ignore name_buffer with
  | none => .error .invalidFilename
  | some file_name =>
    .ok ({ record_length := record_length
           major_version := major_version
           minor_version := minor_version
           file_reference_number := file_reference_number
           parent_file_reference_number := parent_file_reference_number
           usn := toI64 usn_raw
           time_stamp := time_stamp
           reason := UsnReasonFlags.from_bits_truncate reason_raw
           source_info := UsnSourceInfoFlags.from_bits_truncate source_info_raw
           security_id := security_id
           file_attributes := FileAttributeFlags.from_bits_truncate file_attributes_raw
           file_name_length := file_name_length
           file_name_offset := file_name_offset
           file_name := file_name }, s)

/-- The record produced by running `from_buffer` over a fresh cursor on an
entry buffer: a buffer-indexed description of every decoded field. -/
def parse_fields (buf : List Nat) : UsnJournalEntry where
  record_length := leNat (buf.take 4)
  major_version := leNat ((buf.drop 4).take 2)
  minor_version := leNat ((buf.drop 6).take 2)
  file_reference_number := leNat ((buf.drop 8).take 8)
  parent_file_reference_number := leNat ((buf.drop 16).take 8)
  usn := toI64 (leNat ((buf.drop 24).take 8))
  time_stamp := leNat ((buf.drop 32).take 8)
  reason := UsnReasonFlags.from_bits_truncate (leNat ((buf.drop 40).take 4))
  source_info := UsnSourceInfoFlags.from_bits_truncate (leNat ((buf.drop 44).take 4))
  security_id := leNat ((buf.drop 48).take 4)
  file_attributes := FileAttributeFlags.from_bits_truncate (leNat ((buf.drop 52).take 4))
  file_name_length := leNat ((buf.drop 56).take 2)
  file_name_offset := leNat ((buf.drop 58).take 2)
  file_name :=
    String.mk (utf16_chars (utf16_units ((buf.drop 60).take (leNat ((buf.drop 56).take 2)))) none)

/-- The `file_name_length` field of an entry buffer: the little-endian `u16`
at offset 56. -/
def fnlOf (buf : List Nat) : Nat :=
  leNat ((buf.drop 56).take 2)

/-- The bytes the decoder reads the file name from: `file_name_length` bytes
starting immediately after the 60-byte fixed header. -/
def name_bytes (buf : List Nat) : List Nat :=
  (buf.drop 60).take (fnlOf buf)

/-- `UsnJournalParser::next` on an in-memory stream: remember the record start
position, read the record's own 4-byte length (end of stream here means no
more records, `none`), seek back to the record start, read exactly
`record_length` bytes into a fresh scratch buffer (a short read means a
truncated tail, `none`), and decode the record from a cursor over that buffer
only. -/
def UsnJournalParser.next (s : ByteStream) :
    Option (Except Error UsnJournalEntry) × ByteStream :=
  let start_stream_position := s.pos
  match readU32 s with
  | .error _ => (none, s)
  | .ok (record_length, s1) =>
    let s2 : ByteStream := ⟨s1.data, start_stream_position⟩
    match readExact s2 record_length with
    | .error _ => (none, s2)
    | .ok (entry_buffer, s3) =>
      (some ((UsnJournalEntry.from_buffer ⟨entry_buffer, 0⟩).map Prod.fst), s3)

/-- Decoding one extracted record buffer the way `next` does: a fresh cursor
over the scratch buffer, keeping only the entry. -/
def decode_record (r : List Nat) : Except Error UsnJournalEntry :=
  (UsnJournalEntry.from_buffer ⟨r, 0⟩).map Prod.fst

/-- Driving the iterator: collect the yielded items of up to `fuel` calls to
`next`, stopping as soon as a call returns `none`. -/
def UsnJournalParser.collect : Nat → ByteStream → List (Except Error UsnJournalEntry)
  | 0, _ => []
  | fuel + 1, s =>
    match UsnJournalParser.next s with
    | (none, _) => []
    | (some r, s1) => r :: UsnJournalParser.collect fuel s1

/-- A byte buffer is a well-formed USN record when its declared
`record_length` equals its own length and it is long enough to hold the
60-byte fixed header plus `file_name_length` bytes of name. -/
def WellFormedRecord (r : List Nat) : Prop :=
  60 ≤ r.length ∧ leNat (r.take 4) = r.length ∧ 60 + fnlOf r ≤ r.length

instance (r : List Nat) : Decidable (WellFormedRecord r) := by
  unfold WellFormedRecord; infer_instance

/-- The literal 96-byte sample USN record from the test module
(`tests::BUFFER` in `src/usn_journal/entry.rs`). -/
def BUFFER : List Nat :=
  [0x60,0x00,0x00,0x00,0x02,0x00,0x00,0x00,0x73,0x00,0x00,0x00,0x00,0x00,0x68,0x91,
   0x3B,0x2A,0x02,0x00,0x00,0x00,0x07,0x00,0x00,0x00,0x80,0xBC,0x04,0x00,0x00,0x00,
   0x53,0xC7,0x8B,0x18,0xC5,0xCC,0xCE,0x01,0x02,0x00,0x00,0x00,0x00,0x00,0x00,0x00,
   0x00,0x00,0x00,0x00,0x20,0x20,0x00,0x00,0x20,0x00,0x3C,0x00,0x42,0x00,0x54,0x00,
   0x44,0x00,0x65,0x00,0x76,0x00,0x4D,0x00,0x61,0x00,0x6E,0x00,0x61,0x00,0x67,0x00,
   0x65,0x00,0x72,0x00,0x2E,0x00,0x6C,0x00,0x6F,0x00,0x67,0x00,0x00,0x00,0x00,0x00]

/-- Success path of `from_buffer` over a fresh cursor: when the buffer holds
the 60-byte header plus the declared name, decoding succeeds and every field
is the little-endian slice described by `parse_fields`. -/
lemma from_buffer_eq (buf : List Nat) (h : 60 + fnlOf buf ≤ buf.length) :
    UsnJournalEntry.from_buffer ⟨buf, 0⟩ = .ok (parse_fields buf, ⟨buf, 60 + fnlOf buf⟩) := by
  have hname : 60 + leNat ((buf.drop 56).take 2) ≤ buf.length := h
  have h4 : 4 ≤ buf.length := by unfold fnlOf at h; omega
  have h6 : 6 ≤ buf.length := by unfold fnlOf at h; omega
  have h8 : 8 ≤ buf.length := by unfold fnlOf at h; omega
  have h16 : 16 ≤ buf.length := by unfold fnlOf at h; omega
  have h24 : 24 ≤ buf.length := by unfold fnlOf at h; omega
  have h32 : 32 ≤ buf.length := by unfold fnlOf at h; omega
  have h40 : 40 ≤ buf.length := by unfold fnlOf at h; omega
  have h44 : 44 ≤ buf.length := by unfold fnlOf at h; omega
  have h48 : 48 ≤ buf.length := by unfold fnlOf at h; omega
  have h52 : 52 ≤ buf.length := by unfold fnlOf at h; omega
  have h56 : 56 ≤ buf.length := by unfold fnlOf at h; omega
  have h58 : 58 ≤ buf.length := by unfold fnlOf at h; omega
  have h60 : 60 ≤ buf.length := by unfold fnlOf at h; omega
  simp [UsnJournalEntry.from_buffer, readU32, readU16, readU64, readExact, utf16le_decode_ignore, parse_fields, fnlOf, h4, h6, h8, h16, h24, h32, h40, h44, h48, h52, h56, h58, h60, hname]

/-- Failure path of `from_buffer`: a buffer too short for the header plus the
declared name fails with a propagated read error (the timestamp read failure
being mapped to its own variant), never with `invalidFilename`. -/
lemma from_buffer_short_err (buf : List Nat) (h : buf.length < 60 + fnlOf buf) :
    UsnJournalEntry.from_buffer ⟨buf, 0⟩ = .error .ioError ∨
      UsnJournalEntry.from_buffer ⟨buf, 0⟩ = .error .failedToReadWindowsTime := by
  have hfnl : fnlOf buf = leNat ((buf.drop 56).take 2) := rfl
  by_cases h4 : 4 ≤ buf.length
  case neg =>
    left
    simp [UsnJournalEntry.from_buffer, readU32, readU16, readU64, readExact, h4]
  case pos =>
    by_cases h6 : 6 ≤ buf.length
    case neg =>
      left
      simp [UsnJournalEntry.from_buffer, readU32, readU16, readU64, readExact, h4, h6]
    case pos =>
      by_cases h8 : 8 ≤ buf.length
      case neg =>
        left
        simp [UsnJournalEntry.from_buffer, readU32, readU16, readU64, readExact, h4, h6, h8]
      case pos =>
        by_cases h16 : 16 ≤ buf.length
        case neg =>
          left
          simp [UsnJournalEntry.from_buffer, readU32, readU16, readU64, readExact, h4, h6, h8, h16]
        case pos =>
          by_cases h24 : 24 ≤ buf.length
          case neg =>
            left
            simp [UsnJournalEntry.from_buffer, readU32, readU16, readU64, readExact, h4, h6, h8, h16, h24]
          case pos =>
            by_cases h32 : 32 ≤ buf.length
            case neg =>
              left
              simp [UsnJournalEntry.from_buffer, readU32, readU16, readU64, readExact, h4, h6, h8, h16, h24, h32]
            case pos =>
              by_cases h40 : 40 ≤ buf.length
              case neg =>
                right
                simp [UsnJournalEntry.from_buffer, readU32, readU16, readU64, readExact, h4, h6, h8, h16, h24, h32, h40]
              case pos =>
                by_cases h44 : 44 ≤ buf.length
                case neg =>
                  left
                  simp [UsnJournalEntry.from_buffer, readU32, readU16, readU64, readExact, h4, h6, h8, h16, h24, h32, h40, h44]
                case pos =>
                  by_cases h48 : 48 ≤ buf.length
                  case neg =>
                    left
                    simp [UsnJournalEntry.from_buffer, readU32, readU16, readU64, readExact, h4, h6, h8, h16, h24, h32, h40, h44, h48]
                  case pos =>
                    by_cases h52 : 52 ≤ buf.length
                    case neg =>
                      left
                      simp [UsnJournalEntry.from_buffer, readU32, readU16, readU64, readExact, h4, h6, h8, h16, h24, h32, h40, h44, h48, h52]
                    case pos =>
                      by_cases h56 : 56 ≤ buf.length
                      case neg =>
                        left
                        simp [UsnJournalEntry.from_buffer, readU32, readU16, readU64, readExact, h4, h6, h8, h16, h24, h32, h40, h44, h48, h52, h56]
                      case pos =>
                        by_cases h58 : 58 ≤ buf.length
                        case neg =>
                          left
                          simp [UsnJournalEntry.from_buffer, readU32, readU16, readU64, readExact, h4, h6, h8, h16, h24, h32, h40, h44, h48, h52, h56, h58]
                        case pos =>
                          by_cases h60 : 60 ≤ buf.length
                          case neg =>
                            left
                            simp [UsnJournalEntry.from_buffer, readU32, readU16, readU64, readExact, h4, h6, h8, h16, h24, h32, h40, h44, h48, h52, h56, h58, h60]
                          case pos =>
                            left
                            have hname : ¬ (60 + leNat ((buf.drop 56).take 2) ≤ buf.length) := by
                              rw [hfnl] at h; omega
                            simp [UsnJournalEntry.from_buffer, readU32, readU16, readU64, readExact, h4, h6, h8, h16, h24, h32, h40, h44, h48, h52, h56, h58, h60, hname]

/-- Decoding a fresh buffer succeeds exactly when the buffer is long enough for
the fixed header plus the declared file name. -/
lemma from_buffer_ok_iff (buf : List Nat) :
    (∃ v, UsnJournalEntry.from_buffer ⟨buf, 0⟩ = .ok v) ↔ 60 + fnlOf buf ≤ buf.length := by
  constructor
  · rintro ⟨v, hv⟩
    by_contra hlt
    push_neg at hlt
    rcases from_buffer_short_err buf hlt with he | he <;> rw [hv] at he <;> cases he
  · intro hle
    exact ⟨_, from_buffer_eq buf hle⟩

/-- The `invalidFilename` error is unreachable: the `DecoderTrap::Ignore`
decode always succeeds, and every other failure is a read error. -/
lemma from_buffer_ne_invalidFilename (buf : List Nat) :
    UsnJournalEntry.from_buffer ⟨buf, 0⟩ ≠ .error .invalidFilename := by
  by_cases hle : 60 + fnlOf buf ≤ buf.length
  · rw [from_buffer_eq buf hle]; intro hc; cases hc
  · push_neg at hle
    rcases from_buffer_short_err buf hle with he | he <;> rw [he] <;> intro hc <;> cases hc

/-- Inversion of a successful `readU32`. -/
lemma readU32_ok_inv {s : ByteStream} {rl : Nat} {s1 : ByteStream}
    (hr : readU32 s = .ok (rl, s1)) :
    s.pos + 4 ≤ s.data.length ∧ rl = leNat ((s.data.drop s.pos).take 4) ∧
      s1 = ⟨s.data, s.pos + 4⟩ := by
  unfold readU32 at hr
  by_cases h : s.pos + 4 ≤ s.data.length
  · rw [if_pos h] at hr
    cases hr
    exact ⟨h, rfl, rfl⟩
  · rw [if_neg h] at hr
    cases hr

/-- `next` at end of stream: fewer than four bytes remain, so reading the
length field fails and the iterator stops. -/
lemma next_eof_eq (s : ByteStream) (h : s.data.length < s.pos + 4) :
    UsnJournalParser.next s = (none, s) := by
  have hread : readU32 s = .error .ioError := by
    unfold readU32; rw [if_neg (by omega)]
  simp [UsnJournalParser.next, hread]

/-- `next` on a short read: the declared record length extends past the end of
the stream, so the scratch-buffer read fails and the iterator stops. -/
lemma next_short_eq (s : ByteStream) (rl : Nat) (s1 : ByteStream)
    (hr : readU32 s = .ok (rl, s1)) (h : s.data.length < s.pos + rl) :
    UsnJournalParser.next s = (none, ⟨s.data, s.pos⟩) := by
  obtain ⟨hle, hrl, hs1⟩ := readU32_ok_inv hr
  subst hs1
  have hc : ¬ (s.pos + rl ≤ s.data.length) := by omega
  have hex : readExact (⟨s.data, s.pos⟩ : ByteStream) rl = .error .ioError := by
    simp [readExact, hc]
  simp [UsnJournalParser.next, hr, hex]

/-- `next` when the declared record length is available: the yielded item is
the decode of exactly the `record_length`-byte slice at the record start, and
the stream advances by exactly `record_length`. -/
lemma next_read_eq (s : ByteStream) (rl : Nat) (s1 : ByteStream)
    (hr : readU32 s = .ok (rl, s1)) (h : s.pos + rl ≤ s.data.length) :
    UsnJournalParser.next s =
      (some ((UsnJournalEntry.from_buffer ⟨(s.data.drop s.pos).take rl, 0⟩).map Prod.fst),
        ⟨s.data, s.pos + rl⟩) := by
  obtain ⟨hle, hrl, hs1⟩ := readU32_ok_inv hr
  subst hs1
  have hex : readExact (⟨s.data, s.pos⟩ : ByteStream) rl =
      .ok ((s.data.drop s.pos).take rl, ⟨s.data, s.pos + rl⟩) := by
    simp [readExact, h]
  simp [UsnJournalParser.next, hr, hex]

/-- `next` positioned at a well-formed record inside the stream yields exactly
that record's decode and advances past it. -/
lemma next_at_record (pre r post : List Nat) (hwf : WellFormedRecord r) :
    UsnJournalParser.next ⟨pre ++ (r ++ post), pre.length⟩ =
      (some (decode_record r), ⟨pre ++ (r ++ post), pre.length + r.length⟩) := by
  obtain ⟨h60, hlen, hname⟩ := hwf
  have hdrop : (pre ++ (r ++ post)).drop pre.length = r ++ post := List.drop_left pre (r ++ post)
  have hr32 : readU32 ⟨pre ++ (r ++ post), pre.length⟩ =
      .ok (r.length, ⟨pre ++ (r ++ post), pre.length + 4⟩) := by
    have hcond : pre.length + 4 ≤ (pre ++ (r ++ post)).length := by
      simp only [List.length_append]; omega
    simp only [readU32]
    rw [if_pos hcond]
    simp only [hdrop]
    rw [List.take_append_of_le_length (by omega)]
    rw [hlen]
  have hstep := next_read_eq ⟨pre ++ (r ++ post), pre.length⟩ r.length
    ⟨pre ++ (r ++ post), pre.length + 4⟩ hr32 (by simp only [List.length_append]; omega)
  rw [hstep]
  simp only [hdrop]
  rw [List.take_left]
  rfl

/-- One `collect` step when `next` stops. -/
lemma collect_stop (fuel : Nat) (s t : ByteStream)
    (h : UsnJournalParser.next s = (none, t)) :
    UsnJournalParser.collect (fuel + 1) s = [] := by
  simp only [UsnJournalParser.collect, h]

/-- One `collect` step when `next` yields an item. -/
lemma collect_succ (fuel : Nat) (s s1 : ByteStream) (r : Except Error UsnJournalEntry)
    (h : UsnJournalParser.next s = (some r, s1)) :
    UsnJournalParser.collect (fuel + 1) s = r :: UsnJournalParser.collect fuel s1 := by
  simp only [UsnJournalParser.collect, h]

/-- Iterating over any prefix-aligned stream of well-formed records followed
by fewer than four bytes of padding yields exactly the records' decodes. -/
lemma collect_wellformed (recs : List (List Nat)) (pre pad : List Nat)
    (hwf : ∀ r ∈ recs, WellFormedRecord r) (hpad : pad.length < 4) :
    UsnJournalParser.collect (recs.length + 1) ⟨pre ++ (recs.flatten ++ pad), pre.length⟩ =
      recs.map decode_record := by
  induction recs generalizing pre with
  | nil =>
    simp only [List.flatten_nil, List.nil_append, List.length_nil, List.map_nil]
    exact collect_stop 0 _ _
      (next_eof_eq ⟨pre ++ pad, pre.length⟩ (by simp only [List.length_append]; omega))
  | cons r rest ih =>
    have hwfr : WellFormedRecord r := hwf r (List.mem_cons_self r rest)
    have hassoc : (r :: rest).flatten ++ pad = r ++ (rest.flatten ++ pad) := by
      simp [List.append_assoc]
    rw [hassoc, List.length_cons]
    have hnext := next_at_record pre r (rest.flatten ++ pad) hwfr
    rw [collect_succ (rest.length + 1) _ _ _ hnext]
    have hpre : pre ++ (r ++ (rest.flatten ++ pad)) = (pre ++ r) ++ (rest.flatten ++ pad) := by
      rw [List.append_assoc]
    have hpos : pre.length + r.length = (pre ++ r).length := by simp
    rw [hpre, hpos, ih (pre ++ r) (fun x hx => hwf x (List.mem_cons_of_mem r hx))]
    rfl

/-- The single defined `UsnReasonFlags` constants, in declaration order. -/
def usn_reason_flag_values : List Nat :=
  [USN_REASON_BASIC_INFO_CHANGE, USN_REASON_CLOSE, USN_REASON_COMPRESSION_CHANGE,
   USN_REASON_DATA_EXTEND, USN_REASON_DATA_OVERWRITE, USN_REASON_DATA_TRUNCATION,
   USN_REASON_EA_CHANGE, USN_REASON_ENCRYPTION_CHANGE, USN_REASON_FILE_CREATE,
   USN_REASON_FILE_DELETE, USN_REASON_HARD_LINK_CHANGE, USN_REASON_INDEXABLE_CHANGE,
   USN_REASON_NAMED_DATA_EXTEND, USN_REASON_NAMED_DATA_OVERWRITE,
   USN_REASON_NAMED_DATA_TRUNCATION, USN_REASON_OBJECT_ID_CHANGE,
   USN_REASON_RENAME_NEW_NAME, USN_REASON_RENAME_OLD_NAME,
   USN_REASON_REPARSE_POINT_CHANGE, USN_REASON_SECURITY_CHANGE,
   USN_REASON_STREAM_CHANGE, USN_REASON_INTEGRITY_CHANGE]

/-- The single defined `UsnSourceInfoFlags` constants, in declaration order. -/
def usn_source_info_flag_values : List Nat :=
  [USN_SOURCE_DATA_MANAGEMENT, USN_SOURCE_AUXILIARY_DATA,
   USN_SOURCE_REPLICATION_MANAGEMENT]

/-- The fixture buffer with its eight USN bytes (offsets 24..32) replaced by
`0xFF`, making the decoded signed USN value negative. -/
def neg_usn_buf : List Nat :=
  [0x60,0x00,0x00,0x00,0x02,0x00,0x00,0x00,0x73,0x00,0x00,0x00,0x00,0x00,0x68,0x91,
   0x3B,0x2A,0x02,0x00,0x00,0x00,0x07,0x00,0xFF,0xFF,0xFF,0xFF,0xFF,0xFF,0xFF,0xFF,
   0x53,0xC7,0x8B,0x18,0xC5,0xCC,0xCE,0x01,0x02,0x00,0x00,0x00,0x00,0x00,0x00,0x00,
   0x00,0x00,0x00,0x00,0x20,0x20,0x00,0x00,0x20,0x00,0x3C,0x00,0x42,0x00,0x54,0x00,
   0x44,0x00,0x65,0x00,0x76,0x00,0x4D,0x00,0x61,0x00,0x6E,0x00,0x61,0x00,0x67,0x00,
   0x65,0x00,0x72,0x00,0x2E,0x00,0x6C,0x00,0x6F,0x00,0x67,0x00,0x00,0x00,0x00,0x00]

/-- The fixture buffer with `file_name_offset` (offset 58) changed from 60 to
16: the name bytes still live at offset 60. -/
def off_buf : List Nat :=
  [0x60,0x00,0x00,0x00,0x02,0x00,0x00,0x00,0x73,0x00,0x00,0x00,0x00,0x00,0x68,0x91,
   0x3B,0x2A,0x02,0x00,0x00,0x00,0x07,0x00,0x00,0x00,0x80,0xBC,0x04,0x00,0x00,0x00,
   0x53,0xC7,0x8B,0x18,0xC5,0xCC,0xCE,0x01,0x02,0x00,0x00,0x00,0x00,0x00,0x00,0x00,
   0x00,0x00,0x00,0x00,0x20,0x20,0x00,0x00,0x20,0x00,0x10,0x00,0x42,0x00,0x54,0x00,
   0x44,0x00,0x65,0x00,0x76,0x00,0x4D,0x00,0x61,0x00,0x6E,0x00,0x61,0x00,0x67,0x00,
   0x65,0x00,0x72,0x00,0x2E,0x00,0x6C,0x00,0x6F,0x00,0x67,0x00,0x00,0x00,0x00,0x00]

/-- The fixture buffer with its reason bytes (offsets 40..44) and
file-attribute bytes (offsets 52..56) replaced by `0xFF`, setting every
unknown flag bit. -/
def rsn_buf : List Nat :=
  [0x60,0x00,0x00,0x00,0x02,0x00,0x00,0x00,0x73,0x00,0x00,0x00,0x00,0x00,0x68,0x91,
   0x3B,0x2A,0x02,0x00,0x00,0x00,0x07,0x00,0x00,0x00,0x80,0xBC,0x04,0x00,0x00,0x00,
   0x53,0xC7,0x8B,0x18,0xC5,0xCC,0xCE,0x01,0xFF,0xFF,0xFF,0xFF,0xFF,0xFF,0xFF,0xFF,
   0x00,0x00,0x00,0x00,0xFF,0xFF,0xFF,0xFF,0x20,0x00,0x3C,0x00,0x42,0x00,0x54,0x00,
   0x44,0x00,0x65,0x00,0x76,0x00,0x4D,0x00,0x61,0x00,0x6E,0x00,0x61,0x00,0x67,0x00,
   0x65,0x00,0x72,0x00,0x2E,0x00,0x6C,0x00,0x6F,0x00,0x67,0x00,0x00,0x00,0x00,0x00]

/-- The reason description is non-empty exactly for single defined reason
flag values. -/
lemma reason_meaning_iff (n : Nat) :
    UsnReasonFlags.get_meaning ⟨n⟩ ≠ "" ↔ n ∈ usn_reason_flag_values := by
  by_cases hm : n ∈ usn_reason_flag_values
  · refine iff_of_true ?_ hm
    simp only [usn_reason_flag_values, USN_REASON_BASIC_INFO_CHANGE, USN_REASON_CLOSE, USN_REASON_COMPRESSION_CHANGE, USN_REASON_DATA_EXTEND, USN_REASON_DATA_OVERWRITE, USN_REASON_DATA_TRUNCATION, USN_REASON_EA_CHANGE, USN_REASON_ENCRYPTION_CHANGE, USN_REASON_FILE_CREATE, USN_REASON_FILE_DELETE, USN_REASON_HARD_LINK_CHANGE, USN_REASON_INDEXABLE_CHANGE, USN_REASON_NAMED_DATA_EXTEND, USN_REASON_NAMED_DATA_OVERWRITE, USN_REASON_NAMED_DATA_TRUNCATION, USN_REASON_OBJECT_ID_CHANGE, USN_REASON_RENAME_NEW_NAME, USN_REASON_RENAME_OLD_NAME, USN_REASON_REPARSE_POINT_CHANGE, USN_REASON_SECURITY_CHANGE, USN_REASON_STREAM_CHANGE, USN_REASON_INTEGRITY_CHANGE,
      List.mem_cons, List.not_mem_nil, or_false] at hm
    rcases hm with rfl | rfl | rfl | rfl | rfl | rfl | rfl | rfl | rfl | rfl | rfl | rfl | rfl | rfl | rfl | rfl | rfl | rfl | rfl | rfl | rfl | rfl <;> decide
  · refine iff_of_false ?_ hm
    intro hne
    apply hne
    have hd : ∀ c, c ∈ usn_reason_flag_values → n ≠ c := fun c hc he => hm (he ▸ hc)
    simp only [UsnReasonFlags.get_meaning]
    rw [if_neg (hd _ (by decide)),
      if_neg (hd _ (by decide)),
      if_neg (hd _ (by decide)),
      if_neg (hd _ (by decide)),
      if_neg (hd _ (by decide)),
      if_neg (hd _ (by decide)),
      if_neg (hd _ (by decide)),
      if_neg (hd _ (by decide)),
      if_neg (hd _ (by decide)),
      if_neg (hd _ (by decide)),
      if_neg (hd _ (by decide)),
      if_neg (hd _ (by decide)),
      if_neg (hd _ (by decide)),
      if_neg (hd _ (by decide)),
      if_neg (hd _ (by decide)),
      if_neg (hd _ (by decide)),
      if_neg (hd _ (by decide)),
      if_neg (hd _ (by decide)),
      if_neg (hd _ (by decide)),
      if_neg (hd _ (by decide)),
      if_neg (hd _ (by decide)),
      if_neg (hd _ (by decide))]

/-- The source-info description is non-empty exactly for single defined
source-info flag values. -/
lemma source_info_meaning_iff (m : Nat) :
    UsnSourceInfoFlags.get_meaning ⟨m⟩ ≠ "" ↔ m ∈ usn_source_info_flag_values := by
  by_cases hm : m ∈ usn_source_info_flag_values
  · refine iff_of_true ?_ hm
    simp only [usn_source_info_flag_values, USN_SOURCE_DATA_MANAGEMENT, USN_SOURCE_AUXILIARY_DATA, USN_SOURCE_REPLICATION_MANAGEMENT,
      List.mem_cons, List.not_mem_nil, or_false] at hm
    rcases hm with rfl | rfl | rfl <;> decide
  · refine iff_of_false ?_ hm
    intro hne
    apply hne
    have hd : ∀ c, c ∈ usn_source_info_flag_values → m ≠ c := fun c hc he => hm (he ▸ hc)
    simp only [UsnSourceInfoFlags.get_meaning]
    rw [if_neg (hd _ (by decide)),
      if_neg (hd _ (by decide)),
      if_neg (hd _ (by decide))]

/-- Claim C1: decoding the literal 96-byte sample record with
`UsnJournalEntry.from_buffer` succeeds and yields `usn = 20342374400`, reason
bits `2`, file-attribute bits `8224`, file name `"BTDevManager.log"` and
`record_length = 96`. -/
theorem usn_fixture_record_decode :
    (UsnJournalEntry.from_buffer ⟨BUFFER, 0⟩).map
      (fun p => (p.1.usn, p.1.reason.bits, p.1.file_attributes.bits,
        p.1.file_name, p.1.record_length))
      = .ok (20342374400, 2, 8224, "BTDevManager.log", 96) := by
  decide

/-- Claim C2 counterexample: a journal stream of zero well-formed records
followed by four bytes of zero padding makes the iterator yield an error item
instead of terminating without one. -/
theorem usn_padding_yields_error_item :
    (UsnJournalParser.next ⟨([] : List (List Nat)).flatten ++ [0, 0, 0, 0], 0⟩).1 =
      some (.error .ioError) := by
  decide

/-- Claim C2 (amended): iterating over K well-formed concatenated records
followed by fewer than four bytes of trailing zero padding yields exactly the
K decoded records, each of them an `ok` entry, and then stops. -/
theorem usn_journal_iteration_wellformed :
    ∀ (recs : List (List Nat)) (pad : List Nat),
      (∀ r ∈ recs, WellFormedRecord r) → pad.length < 4 → (∀ b ∈ pad, b = 0) →
      UsnJournalParser.collect (recs.length + 1) ⟨recs.flatten ++ pad, 0⟩ =
        recs.map decode_record ∧
      ∀ r ∈ recs, ∃ e, decode_record r = .ok e := by
  intro recs pad hwf hpad hzero
  constructor
  · have h := collect_wellformed recs [] pad hwf hpad
    simpa using h
  · intro r hr
    obtain ⟨h60, hlen, hname⟩ := hwf r hr
    refine ⟨parse_fields r, ?_⟩
    unfold decode_record
    rw [from_buffer_eq r hname]
    rfl

/-- Claim C2 witness: the single-record fixture stream with no padding yields
exactly one decoded record. -/
theorem usn_journal_iteration_wellformed_witness :
    UsnJournalParser.collect 2 ⟨[BUFFER].flatten ++ [], 0⟩ = [BUFFER].map decode_record ∧
      ∀ r ∈ [BUFFER], ∃ e, decode_record r = .ok e :=
  usn_journal_iteration_wellformed [BUFFER] []
    (by intro r hr; rw [List.mem_singleton] at hr; subst hr; decide)
    (by decide) (by intro b hb; cases hb)

/-- Claim C3: `next` terminates the sequence without an item both at end of
stream (fewer than four bytes remain for the length field) and when the
stream ends before the declared record length could be read. -/
theorem usn_next_eof_returns_none :
    ∀ s : ByteStream,
      (s.data.length < s.pos + 4 → (UsnJournalParser.next s).1 = none) ∧
      (∀ rl s1, readU32 s = .ok (rl, s1) → s.data.length < s.pos + rl →
        (UsnJournalParser.next s).1 = none) := by
  intro s
  constructor
  · intro h; rw [next_eof_eq s h]
  · intro rl s1 hr h; rw [next_short_eq s rl s1 hr h]

theorem usn_next_eof_returns_none_witness :
    (UsnJournalParser.next ⟨[0, 0], 0⟩).1 = none ∧
      (UsnJournalParser.next ⟨[96, 0, 0, 0], 0⟩).1 = none :=
  ⟨(usn_next_eof_returns_none ⟨[0, 0], 0⟩).1 (by decide),
   (usn_next_eof_returns_none ⟨[96, 0, 0, 0], 0⟩).2 96 ⟨[96, 0, 0, 0], 4⟩
     (by decide) (by decide)⟩

/-- Claim C4: whenever the declared record length is available, `next` decodes
from a fresh cursor over exactly the `record_length`-byte slice at the record
start and advances the stream exactly `record_length` bytes, for any
(including malformed) `record_length` value. -/
theorem usn_next_bounded_slice :
    ∀ (s : ByteStream) (rl : Nat) (s1 : ByteStream),
      readU32 s = .ok (rl, s1) → s.pos + rl ≤ s.data.length →
      UsnJournalParser.next s =
        (some ((UsnJournalEntry.from_buffer ⟨(s.data.drop s.pos).take rl, 0⟩).map Prod.fst),
          ⟨s.data, s.pos + rl⟩) :=
  next_read_eq

theorem usn_next_bounded_slice_witness :
    UsnJournalParser.next ⟨BUFFER, 0⟩ =
      (some ((UsnJournalEntry.from_buffer ⟨(BUFFER.drop 0).take 96, 0⟩).map Prod.fst),
        ⟨BUFFER, 96⟩) :=
  usn_next_bounded_slice ⟨BUFFER, 0⟩ 96 ⟨BUFFER, 4⟩ (by decide) (by decide)

/-- Claim C5: the file name is decoded from `file_name_length` bytes by the
tolerant UTF-16LE decoder (malformed code units are ignored rather than
aborting the record), and `from_buffer` returns `invalidFilename` exactly when
that tolerant decode itself fails, which it never does. -/
theorem usn_filename_tolerant_decode :
    (∀ bs : List Nat, ∃ str, utf16le_decode_ignore bs = some str) ∧
    (∀ buf e s1, UsnJournalEntry.from_buffer ⟨buf, 0⟩ = .ok (e, s1) →
      utf16le_decode_ignore (name_bytes buf) = some e.file_name) ∧
    (∀ buf : List Nat,
      (UsnJournalEntry.from_buffer ⟨buf, 0⟩ = .error .invalidFilename ↔
        utf16le_decode_ignore (name_bytes buf) = none)) := by
  refine ⟨fun bs => ⟨_, rfl⟩, ?_, ?_⟩
  · intro buf e s1 hok
    have hle := (from_buffer_ok_iff buf).mp ⟨(e, s1), hok⟩
    rw [from_buffer_eq buf hle] at hok
    cases hok
    rfl
  · intro buf
    constructor
    · intro hc; exact absurd hc (from_buffer_ne_invalidFilename buf)
    · intro hn; simp [utf16le_decode_ignore] at hn

theorem usn_filename_tolerant_decode_witness :
    utf16le_decode_ignore (name_bytes BUFFER) = some (parse_fields BUFFER).file_name ∧
      (parse_fields BUFFER).file_name = "BTDevManager.log" :=
  ⟨usn_filename_tolerant_decode.2.1 BUFFER (parse_fields BUFFER) ⟨BUFFER, 92⟩ (by decide),
   by decide⟩

/-- Claim C6 counterexample: a record whose eight USN bytes are all `0xFF`
decodes successfully with `usn = -1`, which is negative. -/
theorem usn_negative_usn_decodes_ok :
    (UsnJournalEntry.from_buffer ⟨neg_usn_buf, 0⟩).map (fun p => p.1.usn) = .ok (-1) ∧
      ¬ (0 ≤ (-1 : Int)) :=
  ⟨by decide, by decide⟩

/-- Claim C6 (amended): `from_buffer` stores as `usn` the raw two's-complement
little-endian 64-bit value of bytes 24..32 without any sign validation, so
negative values decode successfully. -/
theorem usn_field_raw_signed :
    ∀ buf e s1, UsnJournalEntry.from_buffer ⟨buf, 0⟩ = .ok (e, s1) →
      e.usn = toI64 (leNat ((buf.drop 24).take 8)) := by
  intro buf e s1 hok
  have hle := (from_buffer_ok_iff buf).mp ⟨(e, s1), hok⟩
  rw [from_buffer_eq buf hle] at hok
  cases hok
  rfl

theorem usn_field_raw_signed_witness :
    (UsnJournalEntry.from_buffer ⟨neg_usn_buf, 0⟩ =
        .ok (parse_fields neg_usn_buf, ⟨neg_usn_buf, 92⟩)) ∧
      (parse_fields neg_usn_buf).usn = toI64 (leNat ((neg_usn_buf.drop 24).take 8)) :=
  ⟨by decide, usn_field_raw_signed neg_usn_buf (parse_fields neg_usn_buf)
    ⟨neg_usn_buf, 92⟩ (by decide)⟩

/-- Claim C7: the two description lookups return a non-empty string exactly
when the flag value equals a single defined flag constant; combinations of
flags and undefined values yield the empty string. -/
theorem usn_get_meaning_single_flag :
    ∀ n m : Nat,
      (UsnReasonFlags.get_meaning ⟨n⟩ ≠ "" ↔ n ∈ usn_reason_flag_values) ∧
      (UsnSourceInfoFlags.get_meaning ⟨m⟩ ≠ "" ↔ m ∈ usn_source_info_flag_values) :=
  fun n m => ⟨reason_meaning_iff n, source_info_meaning_iff m⟩

/-- Claim C8: the decoder is total and never panics: decoding any buffer
terminates with `ok` exactly when the buffer covers the fixed header plus the
declared name and with an error value otherwise, and every `next` call
terminates with either no item or some item. -/
theorem usn_decoder_total :
    ∀ (buf : List Nat) (s : ByteStream),
      ((∃ v, UsnJournalEntry.from_buffer ⟨buf, 0⟩ = .ok v) ↔
        60 + fnlOf buf ≤ buf.length) ∧
      ((∃ v, UsnJournalEntry.from_buffer ⟨buf, 0⟩ = .ok v) ∨
        (∃ err, UsnJournalEntry.from_buffer ⟨buf, 0⟩ = .error err)) ∧
      ((UsnJournalParser.next s).1 = none ∨ ∃ r, (UsnJournalParser.next s).1 = some r) := by
  intro buf s
  refine ⟨from_buffer_ok_iff buf, ?_, ?_⟩
  · cases h : UsnJournalEntry.from_buffer ⟨buf, 0⟩ with
    | ok v => exact .inl ⟨v, rfl⟩
    | error e => exact .inr ⟨e, rfl⟩
  · cases h : (UsnJournalParser.next s).1 with
    | none => exact .inl rfl
    | some r => exact .inr ⟨r, rfl⟩

/-- Claim C9: the decoder stores `file_name_offset` (the u16 at offset 58) but
never uses it to locate the name: the decoded `file_name` always comes from
the bytes immediately following the fixed 60-byte header. -/
theorem usn_file_name_offset_ignored :
    ∀ buf e s1, UsnJournalEntry.from_buffer ⟨buf, 0⟩ = .ok (e, s1) →
      e.file_name_offset = leNat ((buf.drop 58).take 2) ∧
      e.file_name = String.mk (utf16_chars (utf16_units (name_bytes buf)) none) := by
  intro buf e s1 hok
  have hle := (from_buffer_ok_iff buf).mp ⟨(e, s1), hok⟩
  rw [from_buffer_eq buf hle] at hok
  cases hok
  exact ⟨rfl, rfl⟩

theorem usn_file_name_offset_ignored_witness :
    (UsnJournalEntry.from_buffer ⟨off_buf, 0⟩ =
        .ok (parse_fields off_buf, ⟨off_buf, 92⟩)) ∧
      (parse_fields off_buf).file_name_offset = 16 ∧
      (parse_fields off_buf).file_name = "BTDevManager.log" ∧
      (parse_fields off_buf).file_name =
        String.mk (utf16_chars (utf16_units (name_bytes off_buf)) none) :=
  ⟨by decide, by decide, by decide,
    (usn_file_name_offset_ignored off_buf (parse_fields off_buf) ⟨off_buf, 92⟩
      (by decide)).2⟩

/-- Claim C10: the reason, source-info and file-attribute fields are decoded
with `from_bits_truncate`: the stored bits are always the raw little-endian
u32 masked with the union of defined flag constants, and unknown bits are
silently discarded rather than failing the decode. -/
theorem usn_flags_bits_truncate :
    ∀ buf e s1, UsnJournalEntry.from_buffer ⟨buf, 0⟩ = .ok (e, s1) →
      e.reason.bits = (leNat ((buf.drop 40).take 4)) &&& UsnReasonFlags.all_bits ∧
      e.source_info.bits = (leNat ((buf.drop 44).take 4)) &&& UsnSourceInfoFlags.all_bits ∧
      e.file_attributes.bits = (leNat ((buf.drop 52).take 4)) &&& FileAttributeFlags.all_bits := by
  intro buf e s1 hok
  have hle := (from_buffer_ok_iff buf).mp ⟨(e, s1), hok⟩
  rw [from_buffer_eq buf hle] at hok
  cases hok
  exact ⟨rfl, rfl, rfl⟩

theorem usn_flags_bits_truncate_witness :
    (UsnJournalEntry.from_buffer ⟨rsn_buf, 0⟩ =
        .ok (parse_fields rsn_buf, ⟨rsn_buf, 92⟩)) ∧
      ((parse_fields rsn_buf).reason.bits =
          (leNat ((rsn_buf.drop 40).take 4)) &&& UsnReasonFlags.all_bits ∧
        (parse_fields rsn_buf).source_info.bits =
          (leNat ((rsn_buf.drop 44).take 4)) &&& UsnSourceInfoFlags.all_bits ∧
        (parse_fields rsn_buf).file_attributes.bits =
          (leNat ((rsn_buf.drop 52).take 4)) &&& FileAttributeFlags.all_bits) :=
  ⟨by decide, usn_flags_bits_truncate rsn_buf (parse_fields rsn_buf) ⟨rsn_buf, 92⟩
    (by decide)⟩

end Mft
